import Mathlib

/-!
Verification of the pulsar asynchronous client core against its source:
`pulsar/async/transports/clients.py` (connection pools, client, reconnect,
single-connection client) and `pulsar/apps/http/plugins.py` (redirect,
`101` upgrade, tunneling plugins).  Python objects are embedded shallowly:
object identity becomes a natural-number id, Python sets become
duplicate-free lists with `add`/`discard`, dicts become association lists,
and raised exceptions become `Except` errors.
-/

namespace Pulsar

/-- Connection object as seen by the pool layer.  `cid` stands for the
Python object identity, `producer` for the identity of the object stored in
`connection.producer` (clients.py:82-84 passes the client there), `stale`
for the result of `connection.is_stale()`, and `closed` for the
`connection.closed` flag. -/
structure Conn where
  cid : Nat
  producer : Nat
  stale : Bool
  closed : Bool
deriving DecidableEq, Repr

/-- State of a `ConnectionPool` (clients.py:30-144): the set of available
connections (clients.py:42) and the concurrent set managed by the `Producer`
base class.  `poolId` is the identity of the pool object itself and `nextId`
supplies fresh identities for newly built connection objects. -/
structure PoolSt where
  available : List Conn
  concurrent : List Conn
  maxConnections : Nat
  nextId : Nat
  poolId : Nat
deriving DecidableEq, Repr

/-- Python `set.add`: no effect when the element is already a member. -/
def setAdd (c : Conn) (l : List Conn) : List Conn :=
  if c ∈ l then l else c :: l

/-- Drain loop of `get_or_create_connection` (clients.py:68-76): pop from the
available set until a non-stale connection appears; stale connections have
their transport closed and are dropped from the pool.  Returns the connection
found (if any) together with the remaining available set. -/
def drainAvailable : List Conn → Option Conn × List Conn
  | [] => (none, [])
  | c :: rest => if c.stale then drainAvailable rest else (some c, rest)

inductive PoolError where
  | tooManyConnections
deriving DecidableEq, Repr

/-- Embeds `ConnectionPool.get_or_create_connection` (clients.py:66-95).  A
drained non-stale connection is added to the concurrent set (clients.py:79).
When the available set runs out, a connection is built with
`producer=client` (clients.py:82-84).  The `new_connection` helper itself
lives in `protocols.py`, which is not part of src.  Modelled from the spec:
admission control, "attempts to exceed `max_connections` while `available`
is empty fail with `TooManyConnections`" (spec section 4.3 and section 7),
and the freshly built connection joins the in-flight concurrent set
(spec section 3 and invariant 2 of section 8). -/
def get_or_create_connection (clientId : Nat) (s : PoolSt) :
    Except PoolError (Conn × PoolSt) :=
  match drainAvailable s.available with
  | (some c, rest) =>
      Except.ok (c, { s with available := rest, concurrent := setAdd c s.concurrent })
  | (none, rest) =>
      if s.maxConnections ≤ rest.length + s.concurrent.length then
        Except.error PoolError.tooManyConnections
      else
        let c : Conn :=
          { cid := s.nextId, producer := clientId, stale := false, closed := false }
        Except.ok (c, { s with available := rest,
                               concurrent := setAdd c s.concurrent,
                               nextId := s.nextId + 1 })

/-- Embeds `Client.can_reuse_connection` (clients.py:287-296): the base client
policy accepts every connection, whatever the response. -/
def client_can_reuse_connection {α : Type} (connection : Conn)
    (response : Option α) : Bool :=
  true

/-- Embeds `ConnectionPool.release_connection` (clients.py:52-64): discard the
connection from the concurrent set, then add it to the available set exactly
when `connection.producer.can_reuse_connection(connection, response)` returns
true.  The `closed` flag of the connection is never consulted.  The final
`_remove_self` call only touches the client's pool registry (see
`remove_pool` below) and does not change the two sets. -/
def release_connection {α : Type} (can_reuse : Conn → Option α → Bool)
    (s : PoolSt) (connection : Conn) (response : Option α) : PoolSt :=
  let concurrent := s.concurrent.erase connection
  let available :=
    if can_reuse connection response then setAdd connection s.available
    else s.available
  { s with concurrent := concurrent, available := available }

/-- One pool operation driven by a client: an acquisition, or the release of
a connection together with the boolean verdict of the reuse policy for that
release. -/
inductive PoolOp where
  | acquire
  | release (c : Conn) (canReuse : Bool)
deriving DecidableEq, Repr

def applyOp (clientId : Nat) (s : PoolSt) : PoolOp → PoolSt
  | PoolOp.acquire =>
      match get_or_create_connection clientId s with
      | Except.ok p => p.2
      | Except.error _ => s
  | PoolOp.release c b => release_connection (fun _ _ => b) s c (none : Option Nat)

def applyOps (clientId : Nat) (s : PoolSt) : List PoolOp → PoolSt
  | [] => s
  | op :: ops => applyOps clientId (applyOp clientId s op) ops

/-- A trace is valid when every released connection is taken from the pool's
concurrent set, which is how `_release_response` (clients.py:137-140) invokes
`release_connection`: on the `post_request` event of a connection previously
handed out by this pool. -/
def validOps (clientId : Nat) (s : PoolSt) : List PoolOp → Bool
  | [] => true
  | PoolOp.acquire :: ops =>
      validOps clientId (applyOp clientId s PoolOp.acquire) ops
  | PoolOp.release c b :: ops =>
      decide (c ∈ s.concurrent) &&
        validOps clientId (applyOp clientId s (PoolOp.release c b)) ops

/-- Pool invariant: both sets are duplicate-free, they are disjoint, and every
member connection's `producer` is the client that drives the pool. -/
def poolInv (clientId : Nat) (s : PoolSt) : Prop :=
  s.available.Nodup ∧ s.concurrent.Nodup ∧
  (∀ c ∈ s.available, c ∉ s.concurrent) ∧
  (∀ c ∈ s.available, c.producer = clientId) ∧
  (∀ c ∈ s.concurrent, c.producer = clientId)

lemma mem_setAdd {d c : Conn} {l : List Conn} :
    d ∈ setAdd c l ↔ d = c ∨ d ∈ l := by
  unfold setAdd
  by_cases h : c ∈ l
  · simp only [h, if_true]
    exact ⟨fun hd => Or.inr hd, fun hd => hd.elim (fun e => e ▸ h) id⟩
  · simp [h, List.mem_cons]

lemma nodup_setAdd {c : Conn} {l : List Conn} (h : l.Nodup) :
    (setAdd c l).Nodup := by
  unfold setAdd
  by_cases hc : c ∈ l
  · simpa [hc] using h
  · rw [if_neg hc]
    exact List.nodup_cons.mpr ⟨hc, h⟩

lemma drainAvailable_some {l : List Conn} {c : Conn} {rest : List Conn}
    (h : drainAvailable l = (some c, rest)) :
    ∃ pre, l = pre ++ c :: rest := by
  induction l with
  | nil => simp [drainAvailable] at h
  | cons a t ih =>
      by_cases hs : a.stale = true
      · simp only [drainAvailable, hs, if_true] at h
        obtain ⟨pre, hpre⟩ := ih h
        exact ⟨a :: pre, by simp [hpre]⟩
      · simp only [drainAvailable, hs, if_false, Bool.false_eq_true] at h
        obtain ⟨h1, h2⟩ := Prod.mk.injEq .. ▸ h
        exact ⟨[], by simp_all⟩

lemma drainAvailable_none {l : List Conn} {rest : List Conn}
    (h : drainAvailable l = (none, rest)) : rest = [] := by
  induction l with
  | nil =>
      simp only [drainAvailable, Prod.mk.injEq] at h
      exact h.2.symm
  | cons a t ih =>
      by_cases hs : a.stale = true
      · simp only [drainAvailable, hs, if_true] at h
        exact ih h
      · simp [drainAvailable, hs] at h

lemma poolInv_release {clientId : Nat} {α : Type}
    (policy : Conn → Option α → Bool) {s : PoolSt} {c : Conn}
    (resp : Option α) (hInv : poolInv clientId s) (hc : c ∈ s.concurrent) :
    poolInv clientId (release_connection policy s c resp) := by
  obtain ⟨hA, hC, hD, hPA, hPC⟩ := hInv
  by_cases hb : policy c resp = true
  · refine ⟨?_, ?_, ?_, ?_, ?_⟩ <;>
      simp only [release_connection, hb, if_true]
    · exact nodup_setAdd hA
    · exact hC.erase c
    · intro d hd hmem
      rcases mem_setAdd.mp hd with rfl | hd'
      · exact absurd ((hC.mem_erase_iff).mp hmem).1 (by simp)
      · exact hD d hd' (List.mem_of_mem_erase hmem)
    · intro d hd
      rcases mem_setAdd.mp hd with rfl | hd'
      · exact hPC d hc
      · exact hPA d hd'
    · intro d hd
      exact hPC d (List.mem_of_mem_erase hd)
  · refine ⟨?_, ?_, ?_, ?_, ?_⟩ <;>
      simp only [release_connection, hb, if_false, Bool.false_eq_true]
    · exact hA
    · exact hC.erase c
    · intro d hd hmem
      exact hD d hd (List.mem_of_mem_erase hmem)
    · exact hPA
    · intro d hd
      exact hPC d (List.mem_of_mem_erase hd)

lemma poolInv_get_ok {clientId : Nat} {s : PoolSt} {p : Conn × PoolSt}
    (hInv : poolInv clientId s)
    (hg : get_or_create_connection clientId s = Except.ok p) :
    poolInv clientId p.2 := by
  obtain ⟨hA, hC, hD, hPA, hPC⟩ := hInv
  rcases p with ⟨c, s'⟩
  unfold get_or_create_connection at hg
  rcases hdr : drainAvailable s.available with ⟨oc, rest⟩
  rw [hdr] at hg
  cases oc with
  | some c0 =>
      simp only [Except.ok.injEq, Prod.mk.injEq] at hg
      obtain ⟨hc0, hs'⟩ := hg
      subst hc0
      subst hs'
      obtain ⟨pre, hpre⟩ := drainAvailable_some hdr
      have hcmem : c0 ∈ s.available := by simp [hpre]
      have hrest : ∀ d ∈ rest, d ∈ s.available := by
        intro d hd; simp [hpre, hd]
      have hnd : (pre ++ c0 :: rest).Nodup := hpre ▸ hA
      have hcrest : c0 ∉ rest := by
        have := (List.nodup_append.mp hnd).2.1
        exact (List.nodup_cons.mp this).1
      have hrestnd : rest.Nodup := by
        have := (List.nodup_append.mp hnd).2.1
        exact (List.nodup_cons.mp this).2
      refine ⟨hrestnd, nodup_setAdd hC, ?_, ?_, ?_⟩
      · intro d hd hmem
        rcases mem_setAdd.mp hmem with rfl | hmem'
        · exact hcrest hd
        · exact hD d (hrest d hd) hmem'
      · intro d hd; exact hPA d (hrest d hd)
      · intro d hd
        rcases mem_setAdd.mp hd with rfl | hd'
        · exact hPA d hcmem
        · exact hPC d hd'
  | none =>
      have hrest : rest = [] := drainAvailable_none hdr
      subst hrest
      simp only [List.length_nil, Nat.zero_add] at hg
      by_cases hcap : s.maxConnections ≤ s.concurrent.length
      · rw [if_pos hcap] at hg
        exact absurd hg (by simp)
      · rw [if_neg hcap] at hg
        simp only [Except.ok.injEq, Prod.mk.injEq] at hg
        obtain ⟨hc0, hs'⟩ := hg
        subst hc0
        subst hs'
        refine ⟨List.nodup_nil, nodup_setAdd hC, ?_, ?_, ?_⟩
        · intro d hd; simp at hd
        · intro d hd; simp at hd
        · intro d hd
          rcases mem_setAdd.mp hd with rfl | hd'
          · rfl
          · exact hPC d hd'

lemma applyOp_acquire_ok {clientId : Nat} {s : PoolSt} {p : Conn × PoolSt}
    (hg : get_or_create_connection clientId s = Except.ok p) :
    applyOp clientId s PoolOp.acquire = p.2 := by
  simp [applyOp, hg]

lemma applyOp_acquire_error {clientId : Nat} {s : PoolSt} {e : PoolError}
    (hg : get_or_create_connection clientId s = Except.error e) :
    applyOp clientId s PoolOp.acquire = s := by
  simp [applyOp, hg]

lemma poolInv_acquire {clientId : Nat} {s : PoolSt}
    (hInv : poolInv clientId s) :
    poolInv clientId (applyOp clientId s PoolOp.acquire) := by
  cases hg : get_or_create_connection clientId s with
  | ok p =>
      rw [applyOp_acquire_ok hg]
      exact poolInv_get_ok hInv hg
  | error e =>
      rw [applyOp_acquire_error hg]
      exact hInv

/-- C1 (amended).  For every pool state satisfying the invariant and every
valid sequence of `get_or_create_connection` and `release_connection`
operations (each release passing a connection taken from the concurrent set,
as `_release_response` does), the available and concurrent sets stay
duplicate-free and disjoint, and every connection held in either set has its
`producer` field equal to the Client driving the pool, the object that
`get_or_create_connection` passes as `producer=client` (clients.py:82-84). -/
theorem pool_sets_disjoint_producer_is_client (clientId : Nat) (s : PoolSt)
    (ops : List PoolOp) (hInv : poolInv clientId s)
    (hOps : validOps clientId s ops = true) :
    poolInv clientId (applyOps clientId s ops) := by
  induction ops generalizing s with
  | nil => simpa [applyOps] using hInv
  | cons op ops ih =>
      cases op with
      | acquire =>
          have hOps' : validOps clientId (applyOp clientId s PoolOp.acquire) ops = true := by
            simpa [validOps] using hOps
          exact ih (applyOp clientId s PoolOp.acquire) (poolInv_acquire hInv) hOps'
      | release c b =>
          have h2 := hOps
          simp only [validOps, Bool.and_eq_true, decide_eq_true_eq] at h2
          obtain ⟨hc, hOps'⟩ := h2
          refine ih _ ?_ hOps'
          simpa [applyOp] using
            poolInv_release (fun _ _ => b) (none : Option Nat) hInv hc

/-- Empty pool: the pool object has identity 0, its client identity 1; the
two are always distinct Python objects. -/
def poolC1 : PoolSt :=
  { available := [], concurrent := [], maxConnections := 8, nextId := 0, poolId := 0 }

def connC1 : Conn := { cid := 0, producer := 1, stale := false, closed := false }

def poolC1post : PoolSt :=
  { available := [], concurrent := [connC1], maxConnections := 8, nextId := 1, poolId := 0 }

/-- C1, counterexample.  A single `get_or_create_connection` on an empty pool
builds the connection with `producer=client` (clients.py:82-84): the
connection now held in the concurrent set has its producer equal to the
client object (identity 1), not the pool object (identity 0), refuting
"every Connection held in either set has its producer field equal to the
pool". -/
theorem producer_is_not_pool_counterexample :
    get_or_create_connection 1 poolC1 = Except.ok (connC1, poolC1post) ∧
    connC1 ∈ poolC1post.concurrent ∧ connC1.producer ≠ poolC1post.poolId :=
  ⟨rfl, by decide, by decide⟩

def opsC1 : List PoolOp := [PoolOp.acquire, PoolOp.release connC1 true]

/-- C1, witness run: acquire one connection from the empty pool, then release
it with a positive reuse verdict; the invariant holds afterwards. -/
theorem pool_sets_disjoint_producer_is_client_witness :
    poolInv 1 (applyOps 1 poolC1 opsC1) :=
  pool_sets_disjoint_producer_is_client 1 poolC1 opsC1
    (by unfold poolInv; decide) (by decide)

def connC2 : Conn := { cid := 5, producer := 1, stale := false, closed := true }

def poolC2 : PoolSt :=
  { available := [], concurrent := [connC2], maxConnections := 8, nextId := 6, poolId := 0 }

/-- C2, counterexample.  `release_connection` never consults the connection's
`closed` flag (clients.py:61-63): releasing a closed connection under the base
client policy (`can_reuse_connection` returns true, clients.py:287-296) still
inserts it into the available set, refuting "inserts conn into the available
set if and only if can_reuse_connection(conn, response) returns true and conn
is not closed". -/
theorem release_inserts_closed_connection_counterexample :
    connC2.closed = true ∧
    client_can_reuse_connection connC2 (none : Option Nat) = true ∧
    connC2 ∈ (release_connection client_can_reuse_connection poolC2 connC2
      (none : Option Nat)).available := by
  decide

/-- C2 (amended).  For every connection not already sitting in the available
set (guaranteed by the disjointness invariant), `release_connection` removes
it from the concurrent set and inserts it into the available set if and only
if the producer's `can_reuse_connection(conn, response)` returns true; the
connection's `closed` state plays no role, and on a negative verdict the
connection is simply dropped from both sets. -/
theorem release_connection_membership {α : Type}
    (can_reuse : Conn → Option α → Bool) (s : PoolSt) (conn : Conn)
    (response : Option α) (hnd : s.concurrent.Nodup)
    (hav : conn ∉ s.available) :
    conn ∉ (release_connection can_reuse s conn response).concurrent ∧
    (conn ∈ (release_connection can_reuse s conn response).available ↔
      can_reuse conn response = true) := by
  constructor
  · intro hmem
    simp only [release_connection] at hmem
    exact absurd ((hnd.mem_erase_iff).mp hmem).1 (by simp)
  · simp only [release_connection]
    by_cases hb : can_reuse conn response = true
    · simp [hb, mem_setAdd]
    · simp [hb, hav]

/-- C2, witness: releasing the closed connection of `poolC2` under the base
client policy. -/
theorem release_connection_membership_witness :
    connC2 ∉ (release_connection
      (client_can_reuse_connection : Conn → Option Nat → Bool)
      poolC2 connC2 none).concurrent ∧
    (connC2 ∈ (release_connection
      (client_can_reuse_connection : Conn → Option Nat → Bool)
      poolC2 connC2 none).available ↔
      client_can_reuse_connection connC2 (none : Option Nat) = true) :=
  release_connection_membership client_can_reuse_connection poolC2 connC2 none
    (by decide) (by decide)

/-- C3.  When the available set is empty and the pool already holds
`max_connections` connections, an acquisition attempt fails with
`TooManyConnections` and no connection is created.  The admission check is
modelled from the spec (section 4.3 and section 7) because it lives in
`Producer.new_connection` (protocols.py), which is not under src. -/
theorem too_many_connections_on_saturation (clientId : Nat) (s : PoolSt)
    (hA : s.available = []) (hT : s.concurrent.length = s.maxConnections) :
    get_or_create_connection clientId s =
      Except.error PoolError.tooManyConnections := by
  unfold get_or_create_connection
  rw [hA]
  simp [drainAvailable, hT]

def connC3a : Conn := { cid := 0, producer := 1, stale := false, closed := false }

def connC3b : Conn := { cid := 1, producer := 1, stale := false, closed := false }

def poolC3 : PoolSt :=
  { available := [], concurrent := [connC3a, connC3b], maxConnections := 2,
    nextId := 2, poolId := 0 }

/-- C3, witness: a pool at its cap of two concurrent connections with an empty
reservoir rejects the next acquisition. -/
theorem too_many_connections_on_saturation_witness :
    get_or_create_connection 1 poolC3 =
      Except.error PoolError.tooManyConnections :=
  too_many_connections_on_saturation 1 poolC3 (by decide) (by decide)

/-! ## HTTP redirect plugin (plugins.py:52-90) -/

/-- Response as the redirect plugin sees it: a status code and the parsed
headers. -/
structure HttpResponse where
  status_code : Int
  headers : List (String × String)
deriving DecidableEq, Repr

/-- Python `headers.get(key)`. -/
def headerGet : List (String × String) → String → Option String
  | [], _ => none
  | (k1, v) :: rest, k => if k1 = k then some v else headerGet rest k

/-- Value stored in a request's `inp_params` dict: protocol payloads are
strings, the threaded `history` entry is a list of responses. -/
inductive PVal where
  | str (s : String)
  | responses (rs : List HttpResponse)
deriving DecidableEq, Repr

/-- Python `dict` lookup over an insertion-ordered association list with
unique keys. -/
def dictGet : List (String × PVal) → String → Option PVal
  | [], _ => none
  | (k1, v) :: rest, k => if k1 = k then some v else dictGet rest k

/-- Python `dict` assignment: replace the value under an existing key in
place, or append a new binding. -/
def dictSet : List (String × PVal) → String → PVal → List (String × PVal)
  | [], k, v => [(k, v)]
  | (k1, w) :: rest, k, v =>
      if k1 = k then (k, v) :: rest else (k1, w) :: dictSet rest k v

/-- Python `dict.pop(key, None)`: drop the binding when present. -/
def dictPop (d : List (String × PVal)) (k : String) : List (String × PVal) :=
  d.filter (fun kv => kv.1 != k)

/-- Request as `_do_redirect` reads it (plugins.py:60-90). -/
structure HttpRequest where
  method : String
  full_url : String
  history : List HttpResponse
  max_redirects : Nat
  inp_params : List (String × PVal)
deriving DecidableEq, Repr

/-- The `request_again` sentinel (plugins.py:16-24) built by `_do_redirect`. -/
structure RequestAgain where
  method : String
  url : String
  params : List (String × PVal)
deriving DecidableEq, Repr

/-- Embeds `_do_redirect` (plugins.py:60-90).  The URL fixups performed with
`urlparse`, `urljoin` and `requote_uri` are external collaborators (spec
section 6) abstracted into the `resolve_location` parameter, applied to the
request's full URL and the raw `location` header; nothing in the redirect
logic depends on the resolved URL.  The `TooManyRedirects` exception carries
the response (plugins.py:27-30), embedded as the error payload. -/
def do_redirect (resolve_location : String → Option String → String)
    (request : HttpRequest) (response : HttpResponse) :
    Except HttpResponse RequestAgain :=
  let url := resolve_location request.full_url (headerGet response.headers "location")
  let history := request.history
  if history ≠ [] ∧ request.max_redirects ≤ history.length then
    Except.error response
  else
    let params := request.inp_params
    let params := dictSet params "history"
      (PVal.responses ((if history ≠ [] then history else []) ++ [response]))
    if response.status_code = 303 then
      Except.ok { method := "GET", url := url,
                  params := dictPop (dictPop params "data") "files" }
    else
      Except.ok { method := request.method, url := url, params := params }

lemma dictGet_set_self (d : List (String × PVal)) (k : String) (v : PVal) :
    dictGet (dictSet d k v) k = some v := by
  induction d with
  | nil => simp [dictSet, dictGet]
  | cons kv rest ih =>
      rcases kv with ⟨k1, w⟩
      by_cases h : k1 = k
      · simp [dictSet, dictGet, h]
      · simp [dictSet, dictGet, h, ih]

lemma dictGet_set_ne (d : List (String × PVal)) (k k2 : String) (v : PVal)
    (h : k2 ≠ k) : dictGet (dictSet d k v) k2 = dictGet d k2 := by
  induction d with
  | nil => simp [dictSet, dictGet, Ne.symm h]
  | cons kv rest ih =>
      rcases kv with ⟨k1, w⟩
      by_cases h1 : k1 = k
      · subst h1
        simp [dictSet, dictGet, Ne.symm h]
      · by_cases h2 : k1 = k2
        · subst h2
          simp [dictSet, dictGet, h1]
        · simp [dictSet, dictGet, h1, h2, ih]

lemma dictGet_pop_self (d : List (String × PVal)) (k : String) :
    dictGet (dictPop d k) k = none := by
  induction d with
  | nil => simp [dictPop, dictGet]
  | cons kv rest ih =>
      rcases kv with ⟨k1, w⟩
      by_cases h : k1 = k
      · simpa [dictPop, h] using ih
      · simpa [dictPop, dictGet, h] using ih

lemma dictGet_pop_ne (d : List (String × PVal)) (k k2 : String) (h : k2 ≠ k) :
    dictGet (dictPop d k) k2 = dictGet d k2 := by
  induction d with
  | nil => simp [dictPop, dictGet]
  | cons kv rest ih =>
      rcases kv with ⟨k1, w⟩
      by_cases h1 : k1 = k
      · subst h1
        simpa [dictPop, dictGet, Ne.symm h] using ih
      · by_cases h2 : k1 = k2
        · subst h2
          simp [dictPop, dictGet, h]
        · simpa [dictPop, dictGet, h1, h2] using ih

def resolveId (full_url : String) (location : Option String) : String :=
  location.getD full_url

def reqC4 : HttpRequest :=
  { method := "POST", full_url := "http://h/a", history := [],
    max_redirects := 0, inp_params := [("data", PVal.str "body")] }

def respC4 : HttpResponse :=
  { status_code := 302, headers := [("location", "http://h/b")] }

def isOkE {ε α : Type} : Except ε α → Bool
  | Except.ok _ => true
  | Except.error _ => false

/-- C4, counterexample.  With `max_redirects = 0` and an empty history, the
copied-and-appended history has length 1, exceeding the bound, yet
`_do_redirect` returns a `request_again` instead of raising
`TooManyRedirects`: the comparison at plugins.py:78 uses the pre-append
history and is skipped entirely while the history is empty, refuting
"raising TooManyRedirects exactly when the bound is exceeded" and the
"at most max_redirects + 1 exchanges" consequence (this chain performs two
exchanges with max_redirects = 0). -/
theorem redirect_bound_counterexample :
    isOkE (do_redirect resolveId reqC4 respC4) = true ∧
    reqC4.max_redirects < (reqC4.history ++ [respC4]).length := by
  decide

/-- C4 (amended).  `_do_redirect` copies the history and appends the current
response into the `history` entry of the new params, but the comparison
against `max_redirects` happens before the append and is skipped when the
history is empty: `TooManyRedirects` is raised exactly when the pre-append
history is nonempty and its length is at least `max_redirects`.
Consequently any request performs at most `max(max_redirects, 1) + 1` HTTP
exchanges: each successful redirect grows the history by exactly one, and
every request whose history has reached `max(max_redirects, 1)` entries is
refused. -/
lemma do_redirect_characterization
    (resolve_location : String → Option String → String)
    (request : HttpRequest) (response : HttpResponse) :
    do_redirect resolve_location request response =
      if request.history ≠ [] ∧ request.max_redirects ≤ request.history.length
      then Except.error response
      else if response.status_code = 303 then
        Except.ok { method := "GET",
                    url := resolve_location request.full_url
                      (headerGet response.headers "location"),
                    params := dictPop (dictPop
                      (dictSet request.inp_params "history"
                        (PVal.responses (request.history ++ [response])))
                      "data") "files" }
      else
        Except.ok { method := request.method,
                    url := resolve_location request.full_url
                      (headerGet response.headers "location"),
                    params := dictSet request.inp_params "history"
                      (PVal.responses (request.history ++ [response])) } := by
  have hhist : (if request.history ≠ [] then request.history else []) ++
      [response] = request.history ++ [response] := by
    by_cases hh : request.history = []
    · simp [hh]
    · simp [hh]
  simp only [do_redirect]
  rw [hhist]

theorem redirect_history_append_and_guard
    (resolve_location : String → Option String → String)
    (request : HttpRequest) (response : HttpResponse) :
    (do_redirect resolve_location request response = Except.error response ↔
      (request.history ≠ [] ∧ request.max_redirects ≤ request.history.length)) ∧
    (∀ ra, do_redirect resolve_location request response = Except.ok ra →
      dictGet ra.params "history" =
        some (PVal.responses (request.history ++ [response]))) ∧
    (max request.max_redirects 1 ≤ request.history.length →
      do_redirect resolve_location request response = Except.error response) := by
  rw [do_redirect_characterization]
  by_cases hg : request.history ≠ [] ∧ request.max_redirects ≤ request.history.length
  · rw [if_pos hg]
    refine ⟨by simp [hg], ?_, fun _ => rfl⟩
    intro ra hra
    exact absurd hra (by simp)
  · rw [if_neg hg]
    refine ⟨?_, ?_, ?_⟩
    · constructor
      · intro h
        by_cases h3 : response.status_code = 303
        · rw [if_pos h3] at h; exact absurd h (by simp)
        · rw [if_neg h3] at h; exact absurd h (by simp)
      · intro h; exact absurd h hg
    · intro ra hra
      by_cases h3 : response.status_code = 303
      · rw [if_pos h3] at hra
        simp only [Except.ok.injEq] at hra
        subst hra
        dsimp only
        have hd : ("history" : String) ≠ "files" := by decide
        have hd2 : ("history" : String) ≠ "data" := by decide
        rw [dictGet_pop_ne _ _ _ hd, dictGet_pop_ne _ _ _ hd2,
            dictGet_set_self]
      · rw [if_neg h3] at hra
        simp only [Except.ok.injEq] at hra
        subst hra
        dsimp only
        rw [dictGet_set_self]
    · intro hlen
      exfalso
      apply hg
      have h1 : 1 ≤ request.history.length := le_trans (le_max_right _ _) hlen
      refine ⟨?_, le_trans (le_max_left _ _) hlen⟩
      intro he
      rw [he] at h1
      simp at h1

def reqC4w : HttpRequest :=
  { method := "POST", full_url := "http://h/a", history := [respC4],
    max_redirects := 1, inp_params := [("data", PVal.str "body")] }

def respC4w : HttpResponse :=
  { status_code := 301, headers := [("location", "http://h/c")] }

/-- C4, witness: a request whose single-entry history has reached the bound
`max_redirects = 1` is refused with `TooManyRedirects`. -/
theorem redirect_history_append_and_guard_witness :
    do_redirect resolveId reqC4w respC4w = Except.error respC4w :=
  (redirect_history_append_and_guard resolveId reqC4w respC4w).1.mpr
    (by decide)

/-- C9.  A `request_again` produced by `_do_redirect` forces method `GET` and
drops the `data` and `files` params on a 303 response, and preserves the
original method and body params on every other status code. -/
theorem redirect_method_and_body (resolve_location : String → Option String → String)
    (request : HttpRequest) (response : HttpResponse) (ra : RequestAgain)
    (hra : do_redirect resolve_location request response = Except.ok ra) :
    (response.status_code = 303 →
      ra.method = "GET" ∧ dictGet ra.params "data" = none ∧
      dictGet ra.params "files" = none) ∧
    (response.status_code ≠ 303 →
      ra.method = request.method ∧
      dictGet ra.params "data" = dictGet request.inp_params "data" ∧
      dictGet ra.params "files" = dictGet request.inp_params "files") := by
  rw [do_redirect_characterization] at hra
  by_cases hg : request.history ≠ [] ∧ request.max_redirects ≤ request.history.length
  · rw [if_pos hg] at hra
    exact absurd hra (by simp)
  · rw [if_neg hg] at hra
    by_cases h3 : response.status_code = 303
    · rw [if_pos h3] at hra
      simp only [Except.ok.injEq] at hra
      subst hra
      refine ⟨fun _ => ⟨rfl, ?_, ?_⟩, fun hne => absurd h3 hne⟩
      · dsimp only
        have hd : ("data" : String) ≠ "files" := by decide
        rw [dictGet_pop_ne _ _ _ hd, dictGet_pop_self]
      · dsimp only
        rw [dictGet_pop_self]
    · rw [if_neg h3] at hra
      simp only [Except.ok.injEq] at hra
      subst hra
      refine ⟨fun he => absurd he h3, fun _ => ⟨rfl, ?_, ?_⟩⟩
      · dsimp only
        have hd : ("data" : String) ≠ "history" := by decide
        rw [dictGet_set_ne _ _ _ _ hd]
      · dsimp only
        have hd : ("files" : String) ≠ "history" := by decide
        rw [dictGet_set_ne _ _ _ _ hd]

def reqC9 : HttpRequest :=
  { method := "POST", full_url := "http://h/x", history := [],
    max_redirects := 10,
    inp_params := [("data", PVal.str "body"), ("files", PVal.str "upload")] }

def respC9 : HttpResponse :=
  { status_code := 303, headers := [("location", "http://h/y")] }

def raC9 : RequestAgain :=
  { method := "GET", url := "http://h/y",
    params := [("history", PVal.responses [respC9])] }

/-- C9, witness: a 303 response to a POST with body and files produces a GET
`request_again` carrying neither. -/
theorem redirect_method_and_body_witness :
    raC9.method = "GET" ∧ dictGet raC9.params "data" = none ∧
    dictGet raC9.params "files" = none :=
  (redirect_method_and_body resolveId reqC9 respC9 raC9 rfl).1 rfl

/-! ## Reconnection (clients.py:99-123 and 298-300) -/

/-- Names bound at module level in clients.py (its import statements,
lines 1-10, plus the classes the module defines).  `math` is not among
them. -/
def clients_module_globals : List String :=
  ["socket", "partial", "reduce", "TooManyConnections", "get_event_loop",
   "new_event_loop", "itervalues", "get_transport_type", "create_socket",
   "is_failure", "ProtocolConsumer", "EventHandler", "Producer",
   "create_transport", "LOGGER", "Request", "ConnectionPool", "Client",
   "SingleClient"]

/-- Result of evaluating a piece of Python code: a value, or a raised
`NameError`, or a raised `TypeError`. -/
inductive PyEval (α : Type) where
  | ok (value : α)
  | nameError (missing : String)
  | typeError
deriving DecidableEq, Repr

/-- Embeds `Client.reconnect_time_lag` (clients.py:298-300).  Its body is
`lag = self.reconnect_time_lag*(math.log(lag) + 1)`.  Python resolves the
name `math` against the module globals before the arithmetic runs, and
clients.py never imports `math` (see `clients_module_globals`), so every
call raises `NameError`.  Even with `math` in scope the left operand
`self.reconnect_time_lag` denotes the bound method itself, and multiplying
a method by a float raises `TypeError`, so no branch produces a number. -/
def reconnect_time_lag (lag : Nat) : PyEval Nat :=
  if "math" ∈ clients_module_globals then PyEval.typeError
  else PyEval.nameError "math"

inductive ReconnectAction where
  | noRetry
  | immediate
  | scheduled (delay : Nat)
deriving DecidableEq, Repr

/-- Embeds the control flow of `ConnectionPool._try_reconnect`
(clients.py:99-123) on a `connection_lost` event: only socket failures are
handled, a missing consumer aborts, `retries = consumer.can_reconnect(...)`
of zero aborts; otherwise `lag = retries - 1` reconnects immediately when
zero and is otherwise passed through `client.reconnect_time_lag(lag)` to
schedule a delayed reconnect via `loop.call_later`. -/
def try_reconnect (is_socket_failure : Bool) (has_consumer : Bool)
    (retries : Nat) : PyEval ReconnectAction :=
  if !is_socket_failure then PyEval.ok ReconnectAction.noRetry
  else if !has_consumer then PyEval.ok ReconnectAction.noRetry
  else if retries = 0 then PyEval.ok ReconnectAction.noRetry
  else
    let lag := retries - 1
    if lag ≠ 0 then
      match reconnect_time_lag lag with
      | PyEval.ok d => PyEval.ok (ReconnectAction.scheduled d)
      | PyEval.nameError n => PyEval.nameError n
      | PyEval.typeError => PyEval.typeError
    else PyEval.ok ReconnectAction.immediate

/-- C5.  The immediate branch behaves as claimed (`retries = 1`, so
`lag = 0`, reconnect at once), but as soon as a positive lag has to be
turned into a delay the code crashes: `reconnect_time_lag` references the
unimported module `math` and raises `NameError` (and its formula multiplies
the bound method `self.reconnect_time_lag` rather than a base gap), so no
`base * (log lag + 1)` delay is ever computed. -/
theorem reconnect_time_lag_crashes :
    try_reconnect true true 1 = PyEval.ok ReconnectAction.immediate ∧
    try_reconnect true true 2 = PyEval.nameError "math" ∧
    reconnect_time_lag 1 = PyEval.nameError "math" := by
  decide

/-! ## Pool deregistration (clients.py:142-144 and 302-308) -/

/-- Key of the `connection_pools` dict.  In this client the keys are the
`(address, timeout)` tuples of `Request.key` (clients.py:22-24, 259-265),
but `remove_pool` iterates whatever keys the dict holds, so plain integers
are representable too. -/
inductive PyKey where
  | tup (address : String × Nat) (timeout : Nat)
  | int (n : Int)
deriving DecidableEq, Repr

/-- Python truthiness of a key: a 2-tuple is always truthy, an integer is
truthy exactly when nonzero. -/
def pyTruthy : PyKey → Bool
  | PyKey.tup _ _ => true
  | PyKey.int n => n ≠ 0

/-- The `for key, p in self.connection_pools.items(): if pool is p: break`
loop of `Client.remove_pool` (clients.py:303-306): `key` ends up holding the
key of the first entry whose pool is identical to `pool`, or the key of the
last entry when no entry matches, or stays `None` on an empty dict. -/
def remove_pool_scan (pool : Nat) : List (PyKey × Nat) → Option PyKey
  | [] => none
  | (k, p) :: rest =>
      if p = pool then some k
      else
        match rest with
        | [] => some k
        | _ :: _ => remove_pool_scan pool rest

/-- Embeds `Client.remove_pool` (clients.py:302-308): run the scan loop,
then `if key: self.connection_pools.pop(key)` — a truthiness test on the
key, not a found-check. -/
def remove_pool (pools : List (PyKey × Nat)) (pool : Nat) :
    List (PyKey × Nat) :=
  match remove_pool_scan pool pools with
  | none => pools
  | some k => if pyTruthy k then pools.filter (fun kv => kv.1 != k) else pools

/-- Embeds `ConnectionPool._remove_self` (clients.py:142-144): when both the
available and the concurrent set are empty, deregister this pool from the
client's `connection_pools`. -/
def remove_self (s : PoolSt) (pools : List (PyKey × Nat)) :
    List (PyKey × Nat) :=
  if s.available.isEmpty && s.concurrent.isEmpty then remove_pool pools s.poolId
  else pools

/-- C6.  `remove_pool` does not remove exactly the pool passed to it: when
the passed pool is absent (for instance on a second deregistration of an
already removed pool), the loop variable retains the last key and the pool
stored under it — a different pool — is popped; and a pool stored under a
falsy key (integer 0) is never removed even though the loop matched it. -/
theorem remove_pool_wrong_pool :
    remove_pool [(PyKey.tup ("h", 80) 0, 1)] 2 = [] ∧
    remove_pool [(PyKey.int 0, 7)] 7 = [(PyKey.int 0, 7)] := by
  decide

/-! ## WebSocket upgrade on 101 (plugins.py:131-142, clients.py:310-319) -/

/-- The HTTP protocol consumer as the 101-upgrade path reads it: the
response status, the `release_connection` flag (default true, spec
section 3), and whether `finished()` ran. -/
structure HttpConsumer where
  status_code : Int
  release_connection : Bool
  is_finished : Bool
deriving DecidableEq, Repr

/-- Embeds `ConnectionPool._release_response` (clients.py:137-140): the
`post_request` hook bound at connection creation (clients.py:86); it
releases the connection back to the pool unless the response carries
`release_connection = False` (`getattr` default `True`). -/
def release_response (p : PoolSt) (connection : Conn)
    (response : HttpConsumer) : PoolSt :=
  if response.release_connection then
    release_connection client_can_reuse_connection p connection (some response)
  else p

/-- World visible to the 101-upgrade path: the pool, the connection carrying
the response, the HTTP consumer, and whether the connection's consumer
factory has been swapped to the WebSocket factory. -/
structure World101 where
  pool : PoolSt
  conn : Conn
  response : HttpConsumer
  factory_upgraded : Bool
deriving DecidableEq, Repr

/-- Modelled from the spec: `ProtocolConsumer.finished` (protocols.py, not
under src) fires the consumer's one-time `post_request` stage (spec
section 4.2, "fires exactly once after the body is complete") and marks the
consumer finished; on a pooled connection the pool's `_release_response`
hook is bound to `post_request` (clients.py:86), so it runs here. -/
def consumer_finished (w : World101) : World101 :=
  { w with pool := release_response w.pool w.conn w.response,
           response := { w.response with is_finished := true } }

/-- Embeds `handle_101` (plugins.py:131-142): on a 101 response, build the
frame parser and the WS handler (no pool effect), call
`connection.upgrade(partial(WebSocketClient, ...))`, then
`response.finished()`.  Modelled from the spec: `Connection.upgrade`
(protocols.py, not under src) swaps the connection's consumer factory (spec
section 4.5, "swaps the Connection's consumer factory to protocol_factory")
and nothing else; the `release_connection` flag is only cleared by
`Client.upgrade` (clients.py:316), which `handle_101` never calls. -/
def handle_101 (w : World101) : World101 :=
  if w.response.status_code = 101 then
    consumer_finished { w with factory_upgraded := true }
  else w

/-- Embeds `Client.upgrade` (clients.py:310-319): when the connection has a
current consumer, clear its `release_connection` flag, fire `finished()`,
then swap the connection's consumer factory. -/
def client_upgrade (has_consumer : Bool) (w : World101) : World101 :=
  if has_consumer then
    let w1 := { w with response := { w.response with release_connection := false } }
    { consumer_finished w1 with factory_upgraded := true }
  else w

def connC7 : Conn := { cid := 2, producer := 1, stale := false, closed := false }

def poolC7 : PoolSt :=
  { available := [], concurrent := [connC7], maxConnections := 8, nextId := 3,
    poolId := 0 }

def worldC7 : World101 :=
  { pool := poolC7, conn := connC7,
    response := { status_code := 101, release_connection := true,
                  is_finished := false },
    factory_upgraded := false }

/-- C7.  On a 101 response `handle_101` does mark the consumer finished, but
the connection *is* returned to the pool: `handle_101` calls
`connection.upgrade` and `response.finished()` without ever clearing the
consumer's `release_connection` flag, so the `post_request` hook
`_release_response` sees the default `True` and puts the connection back
into the available set — the suppression the claim describes only happens
on the `Client.upgrade` path (clients.py:310-319), which `handle_101`
bypasses. -/
theorem handle_101_releases_connection :
    (handle_101 worldC7).response.is_finished = true ∧
    connC7 ∈ (handle_101 worldC7).pool.available ∧
    connC7 ∉ (client_upgrade true worldC7).pool.available := by
  decide

/-! ## Proxy tunneling (plugins.py:145-166) -/

/-- Request as the tunneling plugin reads it: its identity, the optional
tunnel descriptor `request._tunnel` (an opaque identity of the CONNECT
request object), and the `_apply_tunnel` flag (`getattr` default false). -/
structure TunReq where
  rid : Nat
  tunnel : Option Nat
  apply_tunnel : Bool
deriving DecidableEq, Repr

/-- The object sitting in `response._request`: either an ordinary request or
the CONNECT tunnel request substituted by the plugin. -/
inductive ReqRef where
  | normal (r : TunReq)
  | connectTunnel (tid : Nat)
deriving DecidableEq, Repr

/-- Response state touched by `Tunneling.__call__`: the current
`response._request`, whether the transport socket is already TLS, whether
the plugin's `on_headers` continuation is bound, and how many times the
plugin re-bound itself as a `pre_request` handler. -/
structure TunResponse where
  request : Option ReqRef
  transport_tls : Bool
  on_headers_bound : Bool
  pre_request_self_bound : Nat
deriving DecidableEq, Repr

/-- Embeds `Tunneling.__call__` (plugins.py:152-166).  A missing request or
a request without `_tunnel` leaves everything untouched.  With a tunnel set:
when `_apply_tunnel` is not yet set, set it on the request object and
re-bind the plugin as a `pre_request` handler, and do nothing else; when it
is set and the transport is not TLS, substitute `response._request` with the
tunnel request and bind the `on_headers` continuation.  The CONNECT tunnel
request object (`HttpTunnel`, outside src) is opaque here; the plugin never
reaches its branch body for it because a tunnel request carries no
`_tunnel`. -/
def tunneling_call (resp : TunResponse) : TunResponse :=
  match resp.request with
  | none => resp
  | some (ReqRef.connectTunnel _) => resp
  | some (ReqRef.normal req) =>
      match req.tunnel with
      | none => resp
      | some tid =>
          if req.apply_tunnel then
            if resp.transport_tls then resp
            else { resp with request := some (ReqRef.connectTunnel tid),
                             on_headers_bound := true }
          else
            { resp with
                request := some (ReqRef.normal { req with apply_tunnel := true }),
                pre_request_self_bound := resp.pre_request_self_bound + 1 }

/-- C8.  First `pre_request` firing on a request with a tunnel and a
non-TLS transport: the plugin only sets `_apply_tunnel` and re-binds itself
as a `pre_request` handler — the request is not substituted, no `on_headers`
hook is bound, the transport is untouched.  Only the second firing
substitutes the CONNECT tunnel request and binds the `on_headers`
continuation. -/
theorem tunneling_two_phase (resp : TunResponse) (req : TunReq) (tid : Nat)
    (hreq : resp.request = some (ReqRef.normal req))
    (htun : req.tunnel = some tid)
    (happ : req.apply_tunnel = false)
    (htls : resp.transport_tls = false) :
    (tunneling_call resp).request =
      some (ReqRef.normal { req with apply_tunnel := true }) ∧
    (tunneling_call resp).pre_request_self_bound =
      resp.pre_request_self_bound + 1 ∧
    (tunneling_call resp).on_headers_bound = resp.on_headers_bound ∧
    (tunneling_call resp).transport_tls = resp.transport_tls ∧
    (tunneling_call (tunneling_call resp)).request =
      some (ReqRef.connectTunnel tid) ∧
    (tunneling_call (tunneling_call resp)).on_headers_bound = true := by
  have h1 : tunneling_call resp =
      { resp with
          request := some (ReqRef.normal { req with apply_tunnel := true }),
          pre_request_self_bound := resp.pre_request_self_bound + 1 } := by
    rw [tunneling_call, hreq]
    simp only [htun, happ, Bool.false_eq_true, if_false]
  rw [h1]
  refine ⟨rfl, rfl, rfl, rfl, ?_, ?_⟩ <;>
    simp [tunneling_call, htun, htls]

def respC8 : TunResponse :=
  { request := some (ReqRef.normal { rid := 4, tunnel := some 9,
                                     apply_tunnel := false }),
    transport_tls := false, on_headers_bound := false,
    pre_request_self_bound := 0 }

/-- C8, witness: a concrete tunneled request over a plain socket goes
through the two firings as described. -/
theorem tunneling_two_phase_witness :
    (tunneling_call respC8).request =
      some (ReqRef.normal { rid := 4, tunnel := some 9, apply_tunnel := true }) ∧
    (tunneling_call respC8).pre_request_self_bound = 1 ∧
    (tunneling_call respC8).on_headers_bound = false ∧
    (tunneling_call respC8).transport_tls = false ∧
    (tunneling_call (tunneling_call respC8)).request =
      some (ReqRef.connectTunnel 9) ∧
    (tunneling_call (tunneling_call respC8)).on_headers_bound = true :=
  tunneling_two_phase respC8 { rid := 4, tunnel := some 9, apply_tunnel := false }
    9 rfl rfl rfl rfl

/-! ## SingleClient (clients.py:238-255 and 322-334) -/

/-- State of a `SingleClient`: the cached consumer object (`self._consumer`),
the number of pool acquisitions performed so far through
`Client.get_connection`, the log of `new_request` dispatches as
`(consumer, request)` pairs, and a supply of fresh consumer identities. -/
structure SCState where
  consumer : Option Nat
  pool_acquisitions : Nat
  dispatched : List (Nat × Nat)
  next_consumer_id : Nat
deriving DecidableEq, Repr

/-- Embeds `Client.response` (clients.py:238-255) in its effects on this
state: acquire a connection for the request (`get_connection`, which ends in
`pool.get_or_create_connection`), build a fresh consumer with
`consumer_factory`, and dispatch `consumer.new_request(request)`. -/
def client_response (s : SCState) (request : Nat) : Nat × SCState :=
  let cid := s.next_consumer_id
  (cid, { consumer := s.consumer,
          pool_acquisitions := s.pool_acquisitions + 1,
          dispatched := s.dispatched ++ [(cid, request)],
          next_consumer_id := cid + 1 })

/-- Embeds `SingleClient.response` (clients.py:329-334): delegate to
`Client.response` the first time and cache the consumer; afterwards call
`new_request` on the cached consumer and return it. -/
def singleclient_response (s : SCState) (request : Nat) : Nat × SCState :=
  match s.consumer with
  | none =>
      let p := client_response s request
      (p.1, { p.2 with consumer := some p.1 })
  | some cid => (cid, { s with dispatched := s.dispatched ++ [(cid, request)] })

def run_responses (s : SCState) : List Nat → List Nat × SCState
  | [] => ([], s)
  | r :: rs =>
      let p := singleclient_response s r
      let q := run_responses p.2 rs
      (p.1 :: q.1, q.2)

lemma run_responses_cached (rs : List Nat) :
    ∀ (s : SCState) (c : Nat), s.consumer = some c →
    run_responses s rs =
      (rs.map (fun _ => c),
       { s with dispatched := s.dispatched ++ rs.map (fun r => (c, r)) }) := by
  induction rs with
  | nil => intro s c hc; simp [run_responses]
  | cons r rs ih =>
      intro s c hc
      have hstep : singleclient_response s r =
          (c, { s with dispatched := s.dispatched ++ [(c, r)] }) := by
        rw [singleclient_response, hc]
      rw [run_responses, hstep]
      rw [ih { s with dispatched := s.dispatched ++ [(c, r)] } c hc]
      simp

/-- C10.  After the first `response` call on a fresh `SingleClient` creates
and caches a consumer, every later call returns that same consumer, appends
exactly one `new_request` dispatch on it per call, and performs no further
pool acquisition. -/
theorem singleclient_reuses_consumer (s : SCState) (r0 : Nat) (rs : List Nat)
    (h0 : s.consumer = none) :
    (run_responses (singleclient_response s r0).2 rs).1 =
      rs.map (fun _ => (singleclient_response s r0).1) ∧
    (run_responses (singleclient_response s r0).2 rs).2.consumer =
      some (singleclient_response s r0).1 ∧
    (run_responses (singleclient_response s r0).2 rs).2.pool_acquisitions =
      (singleclient_response s r0).2.pool_acquisitions ∧
    (run_responses (singleclient_response s r0).2 rs).2.dispatched =
      (singleclient_response s r0).2.dispatched ++
        rs.map (fun r => ((singleclient_response s r0).1, r)) := by
  have hfirst : (singleclient_response s r0).2.consumer =
      some (singleclient_response s r0).1 := by
    rw [singleclient_response, h0]
  rw [run_responses_cached rs (singleclient_response s r0).2
    (singleclient_response s r0).1 hfirst]
  exact ⟨rfl, hfirst, rfl, rfl⟩

def scFresh : SCState :=
  { consumer := none, pool_acquisitions := 0, dispatched := [],
    next_consumer_id := 0 }

/-- C10, witness: a fresh single client serving request 10 and then
requests 11 and 12 reuses consumer 0 throughout and acquires exactly one
connection. -/
theorem singleclient_reuses_consumer_witness :
    (run_responses (singleclient_response scFresh 10).2 [11, 12]).1 =
      [11, 12].map (fun _ => (singleclient_response scFresh 10).1) ∧
    (run_responses (singleclient_response scFresh 10).2 [11, 12]).2.consumer =
      some (singleclient_response scFresh 10).1 ∧
    (run_responses (singleclient_response scFresh 10).2
        [11, 12]).2.pool_acquisitions =
      (singleclient_response scFresh 10).2.pool_acquisitions ∧
    (run_responses (singleclient_response scFresh 10).2 [11, 12]).2.dispatched =
      (singleclient_response scFresh 10).2.dispatched ++
        [11, 12].map (fun r => ((singleclient_response scFresh 10).1, r)) :=
  singleclient_reuses_consumer scFresh 10 [11, 12] rfl

end Pulsar
